import Mathlib

/-!
# ipapk: metadata extraction from `.apk` / `.ipa` archives

A shallow embedding of `parser.go`.  Pointers that may be nil are `Option`s,
Go's `(value, error)` results are pairs of `Option`s, and a nil-pointer
dereference is the explicit outcome `Outcome.panic`.  Everything the package
delegates to the operating system or to a library (opening files, the zip
reader, the binary-XML / plist / PNG decoders, `openssl`, `md5`) is a field of
`Env`; the theorems quantify over every `Env`.
-/

namespace Ipapk

/-! ## Data model -/

/-- Raw byte strings. -/
abbrev Bytes := List Nat

/-- Go `error` values.  Package-level error variables are compared by identity,
so they are kept apart from errors built at a call site with `errors.New` and
from errors handed back by the OS or a library. -/
inductive GoError where
  | pkgVar (msg : String)
  | errorsNew (msg : String)
  | external (msg : String)
  deriving DecidableEq, Repr

/-- The package variable `ErrNoIcon`. -/
def ErrNoIcon : GoError := .pkgVar "icon not found"

/-- The package variable `ErrNoMobileProvision`. -/
def ErrNoMobileProvision : GoError := .pkgVar "mobileprovision not found"

def iosExt : String := ".ipa"
def androidExt : String := ".apk"
def PlatformIOS : Int := 1
def PlatformAndroid : Int := 2
def IOSAdHoc : Int := 1
def IOSAppStore : Int := 2
def IOSEnterprise : Int := 3

/-- A decoded `image.Image`. -/
structure Image where
  pix : Bytes
  deriving DecidableEq, Repr

/-- An entry of the archive (`zip.File`): only its name is inspected by the
package, its content is read through `Env`. -/
structure ZipFile where
  Name : String
  Data : Bytes
  deriving DecidableEq, Repr

/-- The struct `iosInfo`; its zero value is `{}`.  A nil slice and an empty
slice are both the empty list. -/
structure iosInfo where
  «Type» : Int := 0
  TeamName : String := ""
  AllowDevice : List String := []
  deriving DecidableEq, Repr

/-- The struct `AppInfo`; its zero value (what `new(AppInfo)` points to) is `{}`. -/
structure AppInfo where
  Name : String := ""
  BundleId : String := ""
  Version : String := ""
  Build : String := ""
  Icon : Option Image := none
  Size : Int := 0
  Platform : Int := 0
  IOS : iosInfo := {}
  deriving DecidableEq, Repr

structure androidManifest where
  Package : String := ""
  VersionName : String := ""
  VersionCode : String := ""
  deriving DecidableEq, Repr

/-- The struct `iosPlist`; a key missing from the property list leaves the
field at the empty string. -/
structure iosPlist where
  CFBundleName : String := ""
  CFBundleDisplayName : String := ""
  CFBundleVersion : String := ""
  CFBundleShortVersion : String := ""
  CFBundleIdentifier : String := ""
  deriving DecidableEq, Repr

/-- The struct `iosMobileProvision`; the two pointer fields are nil when the
key is missing from the profile. -/
structure iosMobileProvision where
  ProvisionsAllDevices : Option Bool := none
  TeamName : String := ""
  ProvisionedDevices : Option (List String) := none
  deriving DecidableEq, Repr

/-- What `file.Stat()` gives: the base name and the size of the archive. -/
structure FileInfo where
  Name : String
  Size : Int
  deriving DecidableEq, Repr

/-- The operating system and the libraries the package calls. -/
structure Env where
  /-- `os.Open`: a handle on the named file. -/
  osOpen : String → Except GoError String
  /-- `(*os.File).Stat`. -/
  fileStat : String → Except GoError FileInfo
  /-- `zip.NewReader(file, size)`: the entries `reader.File`, in archive order. -/
  zipNewReader : String → Int → Except GoError (List ZipFile)
  /-- `(*zip.File).Open`: a stream on the entry's content. -/
  zipFileOpen : ZipFile → Except GoError Bytes
  /-- `ioutil.ReadAll`. -/
  readAll : Bytes → Except GoError Bytes
  /-- `androidbinary.NewXMLFile`. -/
  newXMLFile : Bytes → Except GoError Bytes
  /-- `xml.NewDecoder(..).Decode` into an `androidManifest`. -/
  xmlDecode : Bytes → Except GoError androidManifest
  /-- `apk.OpenFile`. -/
  apkOpenFile : String → Except GoError String
  /-- `pkg.Icon` with the given density. -/
  pkgIcon : String → Nat → Option Image × Option GoError
  /-- `pkg.Label(nil)`. -/
  pkgLabel : String → String × Option GoError
  /-- `plist.NewDecoder(..).Decode` into an `iosPlist`. -/
  plistDecodeInfo : Bytes → Except GoError iosPlist
  /-- `iospng.PngRevertOptimization`: what ends up in the output buffer. -/
  pngRevertOptimization : Bytes → Bytes
  /-- `png.Decode`. -/
  pngDecode : Bytes → Option Image × Option GoError
  /-- `time.Now().Format("2006-01-02 15:04:05")`. -/
  timeNow : String
  /-- `hex.EncodeToString` of the MD5 digest. -/
  md5Hex : String → String
  /-- `os.Create`. -/
  osCreate : String → Except GoError String
  /-- `io.Copy(f, res)`. -/
  ioCopy : String → Bytes → Except GoError Unit
  /-- The standard output of `openssl smime -inform der -verify -noverify -in localFile`. -/
  opensslSmime : String → Except GoError Bytes
  /-- `plist.NewDecoder(..).Decode` into an `iosMobileProvision`. -/
  plistDecodeProvision : Bytes → Except GoError iosMobileProvision

/-- What a call of `NewAppParser` does: it returns its pair, or it faults on a
nil pointer. -/
inductive Outcome where
  | ret (info : Option AppInfo) (err : Option GoError)
  | panic
  deriving DecidableEq, Repr

/-! ## Entry classification -/

/-- `strings.Contains` on character lists. -/
def containsChars (sub : List Char) : List Char → Bool
  | [] => sub.isEmpty
  | c :: cs => sub.isPrefixOf (c :: cs) || containsChars sub cs

/-- `strings.Contains`. -/
def stringsContains (s sub : String) : Bool := containsChars sub.data s.data

/-- The text `s` starts with `pre`: what is left after it. -/
def dropPrefixChars : List Char → List Char → Option (List Char)
  | [], s => some s
  | _ :: _, [] => none
  | p :: ps, c :: cs => if p = c then dropPrefixChars ps cs else none

/-- A match of `Payload/[^/]+/` followed by the literal `tail`, starting at the
head of `s`.  The run `[^/]+` is followed by a slash, so it is the longest run
of characters other than a slash, and it is not empty. -/
def matchPayloadHere (tail s : List Char) : Bool :=
  match dropPrefixChars "Payload/".data s with
  | none => false
  | some r =>
    let seg := r.takeWhile (fun c => c != '/')
    let rest := r.dropWhile (fun c => c != '/')
    !seg.isEmpty && ('/' :: tail).isPrefixOf rest

/-- An unanchored match (`MatchString`) of `Payload/[^/]+/` followed by `tail`. -/
def matchPayload (tail : List Char) : List Char → Bool
  | [] => false
  | c :: cs => matchPayloadHere tail (c :: cs) || matchPayload tail cs

/-- The regular expression `Payload/[^/]+/Info\.plist`, as `MatchString`. -/
def reInfoPlist (s : String) : Bool := matchPayload "Info.plist".data s.data

/-- The regular expression `Payload/[^/]+/embedded\.mobileprovision`, as `MatchString`. -/
def reMobileProvision (s : String) : Bool :=
  matchPayload "embedded.mobileprovision".data s.data

/-- The four variables the loop of `NewAppParser` fills. -/
structure Located where
  xmlFile : Option ZipFile := none
  plistFile : Option ZipFile := none
  iosIconFile : Option ZipFile := none
  iosMobileProvisionFile : Option ZipFile := none
  deriving DecidableEq, Repr

/-- One turn of the loop of `NewAppParser`: the `switch` on the entry's name. -/
def classifyStep (acc : Located) (f : ZipFile) : Located :=
  if f.Name = "AndroidManifest.xml" then { acc with xmlFile := some f }
  else if reInfoPlist f.Name then { acc with plistFile := some f }
  else if reMobileProvision f.Name then { acc with iosMobileProvisionFile := some f }
  else if stringsContains f.Name "AppIcon60x60" then { acc with iosIconFile := some f }
  else acc

/-- The loop `for _, f := range reader.File` of `NewAppParser`. -/
def classify (files : List ZipFile) : Located := files.foldl classifyStep {}

/-- An entry the loop treats as the iOS icon: the fourth `case` is reached and holds. -/
def isIosIcon (f : ZipFile) : Bool :=
  !decide (f.Name = "AndroidManifest.xml") && !reInfoPlist f.Name
    && !reMobileProvision f.Name && stringsContains f.Name "AppIcon60x60"

/-- `filepath.Ext`, scanning from the end of the path: `acc` is what has been
passed already. -/
def extScan : List Char → List Char → List Char
  | [], _ => []
  | c :: rest, acc =>
    if c = '/' then [] else if c = '.' then c :: acc else extScan rest (c :: acc)

/-- `filepath.Ext`: the suffix from the last dot of the last path element
(the path separator is the slash). -/
def filepathExt (path : String) : String := ⟨extScan path.data.reverse []⟩

/-! ## The decoders -/

/-- The function `parseAndroidManifest`, called on a non-nil entry. -/
def parseAndroidManifest (env : Env) (xmlFile : ZipFile) :
    Option androidManifest × Option GoError :=
  match env.zipFileOpen xmlFile with
  | .error e => (none, some e)
  | .ok rc =>
    match env.readAll rc with
    | .error e => (none, some e)
    | .ok buf =>
      match env.newXMLFile buf with
      | .error e => (none, some e)
      | .ok xmlContent =>
        match env.xmlDecode xmlContent with
        | .error e => (none, some e)
        | .ok manifest => (some manifest, none)

/-- The function `parseApkFile`. -/
def parseApkFile (env : Env) (xmlFile : Option ZipFile) : Option AppInfo × Option GoError :=
  match xmlFile with
  | none => (none, some (.errorsNew "AndroidManifest.xml not found"))
  | some f =>
    match parseAndroidManifest env f with
    | (some manifest, none) =>
      (some { BundleId := manifest.Package, Version := manifest.VersionName,
              Build := manifest.VersionCode, Platform := PlatformAndroid }, none)
    | (_, some e) => (none, some e)
    -- not reached: `parseAndroidManifest` never returns `(nil, nil)`
    | (none, none) => (none, none)

/-- The function `parseApkIconAndLabel`. -/
def parseApkIconAndLabel (env : Env) (name : String) :
    Option Image × String × Option GoError :=
  match env.apkOpenFile name with
  | .error e => (none, "", some e)
  | .ok pkg =>
    match (env.pkgIcon pkg 720).1 with
    | none => (none, "", some ErrNoIcon)
    | some icon => (some icon, (env.pkgLabel pkg).1, none)

/-- The function `parseIpaFile`. -/
def parseIpaFile (env : Env) (plistFile : Option ZipFile) : Option AppInfo × Option GoError :=
  match plistFile with
  | none => (none, some (.errorsNew "info.plist not found"))
  | some f =>
    match env.zipFileOpen f with
    | .error e => (none, some e)
    | .ok rc =>
      match env.readAll rc with
      | .error e => (none, some e)
      | .ok buf =>
        match env.plistDecodeInfo buf with
        | .error e => (none, some e)
        | .ok p =>
          (some { Name := if p.CFBundleDisplayName = "" then p.CFBundleName
                          else p.CFBundleDisplayName,
                  BundleId := p.CFBundleIdentifier, Version := p.CFBundleShortVersion,
                  Build := p.CFBundleVersion, Platform := PlatformIOS }, none)

/-- The function `parseIpaIcon`. -/
def parseIpaIcon (env : Env) (iconFile : Option ZipFile) : Option Image × Option GoError :=
  match iconFile with
  | none => (none, some ErrNoIcon)
  | some f =>
    match env.zipFileOpen f with
    | .error e => (none, some e)
    | .ok rc => env.pngDecode (env.pngRevertOptimization rc)

/-- The function `makeMD5`. -/
def makeMD5 (env : Env) (text : String) : String := env.md5Hex text

/-- The function `parseIpaMobileProvision`. -/
def parseIpaMobileProvision (env : Env) (file : Option ZipFile) :
    Option iosMobileProvision × Option GoError :=
  match file with
  | none => (none, some ErrNoMobileProvision)
  | some zf =>
    let localFile := "/tmp/" ++ makeMD5 env (zf.Name ++ env.timeNow) ++ ".mobileprovision"
    match env.osCreate localFile with
    | .error e => (none, some e)
    | .ok f =>
      match env.zipFileOpen zf with
      | .error e => (none, some e)
      | .ok res =>
        match env.ioCopy f res with
        | .error e => (none, some e)
        | .ok _ =>
          match env.opensslSmime localFile with
          | .error e => (none, some e)
          | .ok out =>
            match env.plistDecodeProvision out with
            | .error e => (none, some e)
            | .ok p => (some p, none)

/-- The statements of `getIosInfo` after the profile has been decoded. -/
def iosInfoOf (info : iosMobileProvision) : iosInfo :=
  let result : iosInfo := {}
  let result := { result with TeamName := info.TeamName }
  let result := { result with «Type» := IOSAppStore }
  let result := { result with AllowDevice := [] }
  let result :=
    match info.ProvisionedDevices with
    | some devices => { result with «Type» := IOSAdHoc, AllowDevice := devices }
    | none => result
  let result :=
    match info.ProvisionsAllDevices with
    | some _ => { result with «Type» := IOSEnterprise }
    | none => result
  result

/-- The function `getIosInfo`. -/
def getIosInfo (env : Env) (file : Option ZipFile) : Option iosInfo × Option GoError :=
  match parseIpaMobileProvision env file with
  | (_, some err) => (none, some err)
  | (some info, none) => (some (iosInfoOf info), none)
  -- not reached: `parseIpaMobileProvision` never returns `(nil, nil)`
  | (none, none) => (none, none)

/-! ## The entry point -/

/-- The branch `ext == androidExt` of `NewAppParser`.  The error of
`parseApkFile` is overwritten by the one of `parseApkIconAndLabel`, and
`info.Name = label` dereferences `info`. -/
def assembleApk (env : Env) (name : String) (stat : FileInfo) (xmlFile : Option ZipFile) :
    Outcome :=
  let (info, _) := parseApkFile env xmlFile
  let (icon, label, err) := parseApkIconAndLabel env name
  match info with
  | none => .panic
  | some info => .ret (some { info with Name := label, Icon := icon, Size := stat.Size }) err

/-- The branch `ext == iosExt` of `NewAppParser`.  The error of `parseIpaFile`
is overwritten by the one of `parseIpaIcon`, `info.Icon = icon` dereferences
`info`, and the error of `getIosInfo` is dropped. -/
def assembleIpa (env : Env) (stat : FileInfo) (loc : Located) : Outcome :=
  let (info, _) := parseIpaFile env loc.plistFile
  let (icon, err) := parseIpaIcon env loc.iosIconFile
  match info with
  | none => .panic
  | some info =>
    let info := { info with Icon := icon, Size := stat.Size }
    let (iosInfoData, _) := getIosInfo env loc.iosMobileProvisionFile
    let info :=
      match iosInfoData with
      | some d => { info with IOS := d }
      | none => info
    .ret (some info) err

/-- The function `NewAppParser`. -/
def NewAppParser (env : Env) (name : String) : Outcome :=
  match env.osOpen name with
  | .error e => .ret none (some e)
  | .ok file =>
    match env.fileStat file with
    | .error e => .ret none (some e)
    | .ok stat =>
      match env.zipNewReader file stat.Size with
      | .error e => .ret none (some e)
      | .ok readerFile =>
        let loc := classify readerFile
        let ext := filepathExt stat.Name
        if ext = androidExt then assembleApk env name stat loc.xmlFile
        else if ext = iosExt then assembleIpa env stat loc
        else .ret none (some (.errorsNew "unknown platform"))

/-! ## Sample archives -/

/-- A machine on which every system call succeeds, holding an archive with the
given entries; the decoders accept one fixed content each. -/
def sampleEnv (entries : List ZipFile) : Env where
  osOpen n := .ok n
  fileStat n := .ok ⟨n, 4096⟩
  zipNewReader _ _ := .ok entries
  zipFileOpen f := .ok f.Data
  readAll b := .ok b
  newXMLFile b := .ok b
  xmlDecode b :=
    if b = [3] then .ok ⟨"com.example.helloworld", "1.0", "1"⟩
    else .error (.external "malformed manifest")
  apkOpenFile n := .ok n
  pkgIcon _ _ := (some ⟨[7]⟩, none)
  pkgLabel _ := ("HelloWorld", none)
  plistDecodeInfo b :=
    if b = [1] then
      .ok { CFBundleName := "helloworld", CFBundleVersion := "1.0",
            CFBundleShortVersion := "1.0", CFBundleIdentifier := "com.kthcorp.helloworld" }
    else .error (.external "malformed plist")
  pngRevertOptimization b := b
  pngDecode b := if b = [2] then (some ⟨[9]⟩, none) else (none, some (.external "malformed png"))
  timeNow := "2020-01-01 00:00:00"
  md5Hex t := t
  osCreate n := .ok n
  ioCopy _ _ := .ok ()
  opensslSmime _ := .ok [4]
  plistDecodeProvision b :=
    if b = [4] then
      .ok { ProvisionsAllDevices := some false, TeamName := "Example Team",
            ProvisionedDevices := some ["udid-1", "udid-2"] }
    else .error (.external "malformed profile")

/-- The same machine, on which the label lookup of the resource table fails. -/
def sampleEnvNoLabel (entries : List ZipFile) : Env :=
  { sampleEnv entries with pkgLabel := fun _ => ("", some (.external "label not found")) }

/-- The profile `sampleEnv` decodes: both keys are present. -/
def sampleProfile : iosMobileProvision :=
  { ProvisionsAllDevices := some false, TeamName := "Example Team",
    ProvisionedDevices := some ["udid-1", "udid-2"] }

def manifestEntry : ZipFile := ⟨"AndroidManifest.xml", [3]⟩
def infoPlistEntry : ZipFile := ⟨"Payload/HelloWorld.app/Info.plist", [1]⟩
def provisionEntry : ZipFile := ⟨"Payload/HelloWorld.app/embedded.mobileprovision", [4]⟩
def iconEntry2x : ZipFile := ⟨"Payload/HelloWorld.app/AppIcon60x60@2x.png", [2]⟩
def iconEntry3x : ZipFile := ⟨"Payload/HelloWorld.app/AppIcon60x60@3x.png", [5]⟩

/-- The record `NewAppParser` returns for the sample `.ipa` that holds an
Info.plist and an icon and no provisioning profile. -/
def sampleIpaRecordNoProfile : AppInfo :=
  { Name := "helloworld", BundleId := "com.kthcorp.helloworld", Version := "1.0",
    Build := "1.0", Icon := some ⟨[9]⟩, Size := 4096, Platform := PlatformIOS,
    IOS := { «Type» := 0, TeamName := "", AllowDevice := [] } }

/-! ## Auxiliary lemmas -/

theorem classify_snoc (files : List ZipFile) (f : ZipFile) :
    classify (files ++ [f]) = classifyStep (classify files) f := by
  simp [classify, List.foldl_append]

theorem classifyStep_iosIconFile (acc : Located) (f : ZipFile) :
    (classifyStep acc f).iosIconFile = if isIosIcon f then some f else acc.iosIconFile := by
  unfold classifyStep isIosIcon
  by_cases h1 : f.Name = "AndroidManifest.xml"
  · simp [h1]
  · by_cases h2 : reInfoPlist f.Name = true
    · simp [h1, h2]
    · by_cases h3 : reMobileProvision f.Name = true
      · simp [h1, h2, h3]
      · by_cases h4 : stringsContains f.Name "AppIcon60x60" = true
        · simp [h1, h2, h3, h4]
        · simp [h1, h2, h3, h4]

theorem androidExt_ne_iosExt : androidExt ≠ iosExt := by decide

/-- The body of `NewAppParser` once the archive has been opened. -/
theorem NewAppParser_opened (env : Env) (name file : String) (stat : FileInfo)
    (files : List ZipFile) (hopen : env.osOpen name = .ok file)
    (hstat : env.fileStat file = .ok stat)
    (hzip : env.zipNewReader file stat.Size = .ok files) :
    NewAppParser env name =
      if filepathExt stat.Name = androidExt then
        assembleApk env name stat (classify files).xmlFile
      else if filepathExt stat.Name = iosExt then assembleIpa env stat (classify files)
      else .ret none (some (.errorsNew "unknown platform")) := by
  simp [NewAppParser, hopen, hstat, hzip]

theorem assembleApk_cases (env : Env) (name : String) (stat : FileInfo)
    (xmlFile : Option ZipFile) :
    ((parseApkFile env xmlFile).1 = none ∧ assembleApk env name stat xmlFile = .panic) ∨
    ∃ info, (parseApkFile env xmlFile).1 = some info ∧
      assembleApk env name stat xmlFile =
        .ret (some { info with Name := (parseApkIconAndLabel env name).2.1,
                               Icon := (parseApkIconAndLabel env name).1,
                               Size := stat.Size })
          (parseApkIconAndLabel env name).2.2 := by
  unfold assembleApk
  rcases h : parseApkFile env xmlFile with ⟨info, e⟩
  rcases h2 : parseApkIconAndLabel env name with ⟨icon, label, err⟩
  cases info with
  | none => left; simp
  | some info => right; exact ⟨info, rfl, rfl⟩

theorem assembleIpa_cases (env : Env) (stat : FileInfo) (loc : Located) :
    ((parseIpaFile env loc.plistFile).1 = none ∧ assembleIpa env stat loc = .panic) ∨
    ∃ info r, (parseIpaFile env loc.plistFile).1 = some info ∧
      assembleIpa env stat loc = .ret (some r) (parseIpaIcon env loc.iosIconFile).2 ∧
      r.Size = stat.Size ∧ r.Icon = (parseIpaIcon env loc.iosIconFile).1 ∧
      r.IOS = ((getIosInfo env loc.iosMobileProvisionFile).1).getD info.IOS := by
  unfold assembleIpa
  rcases h : parseIpaFile env loc.plistFile with ⟨info, e⟩
  rcases h2 : parseIpaIcon env loc.iosIconFile with ⟨icon, err⟩
  rcases h3 : getIosInfo env loc.iosMobileProvisionFile with ⟨d, e3⟩
  cases info with
  | none => left; simp
  | some info =>
    right
    cases d with
    | none => exact ⟨info, _, rfl, rfl, rfl, rfl, rfl⟩
    | some d => exact ⟨info, _, rfl, rfl, rfl, rfl, rfl⟩

theorem parseAndroidManifest_shape (env : Env) (f : ZipFile) :
    (∃ m, parseAndroidManifest env f = (some m, none)) ∨
    ∃ e, parseAndroidManifest env f = (none, some e) := by
  unfold parseAndroidManifest
  repeat' split
  all_goals first | exact .inr ⟨_, rfl⟩ | exact .inl ⟨_, rfl⟩

theorem parseApkFile_shape (env : Env) (xmlFile : Option ZipFile) :
    (∃ i, parseApkFile env xmlFile = (some i, none)) ∨
    ∃ e, parseApkFile env xmlFile = (none, some e) := by
  cases xmlFile with
  | none => exact .inr ⟨_, rfl⟩
  | some f =>
    rcases parseAndroidManifest_shape env f with ⟨m, h⟩ | ⟨e, h⟩
    · left
      simp only [parseApkFile, h]
      exact ⟨_, rfl⟩
    · exact .inr ⟨e, by simp only [parseApkFile, h]⟩

theorem parseIpaFile_shape (env : Env) (plistFile : Option ZipFile) :
    (∃ i, parseIpaFile env plistFile = (some i, none)) ∨
    ∃ e, parseIpaFile env plistFile = (none, some e) := by
  unfold parseIpaFile
  repeat' split
  all_goals first | exact .inr ⟨_, rfl⟩ | exact .inl ⟨_, rfl⟩

theorem parseIpaMobileProvision_shape (env : Env) (file : Option ZipFile) :
    (∃ p, parseIpaMobileProvision env file = (some p, none)) ∨
    ∃ e, parseIpaMobileProvision env file = (none, some e) := by
  cases file with
  | none => exact .inr ⟨_, rfl⟩
  | some zf =>
    dsimp only [parseIpaMobileProvision]
    repeat' split
    all_goals first | exact .inr ⟨_, rfl⟩ | exact .inl ⟨_, rfl⟩

theorem parseApkIconAndLabel_nil_error (env : Env) (name : String)
    (h : (parseApkIconAndLabel env name).2.2 = none) :
    ∃ pkg icon, env.apkOpenFile name = .ok pkg ∧ (env.pkgIcon pkg 720).1 = some icon ∧
      parseApkIconAndLabel env name = (some icon, (env.pkgLabel pkg).1, none) := by
  unfold parseApkIconAndLabel at h ⊢
  cases ho : env.apkOpenFile name with
  | error e => simp [ho] at h
  | ok pkg =>
    cases hi : (env.pkgIcon pkg 720).1 with
    | none => simp [ho, hi] at h
    | some icon => exact ⟨pkg, icon, rfl, hi, by simp only [hi]⟩

theorem parseIpaFile_IOS (env : Env) (plistFile : Option ZipFile) (i : AppInfo)
    (h : (parseIpaFile env plistFile).1 = some i) : i.IOS = {} := by
  unfold parseIpaFile at h
  repeat' split at h
  all_goals (cases h <;> rfl)

/-! ## Provisioning profiles -/

/-- C1: once the profile has been decoded to `p`, `getIosInfo` returns a result
whose type is `IOSEnterprise` when `ProvisionsAllDevices` is present (with
either boolean value), else `IOSAdHoc` when `ProvisionedDevices` is present,
else `IOSAppStore`. -/
theorem getIosInfo_type_by_presence (env : Env) (file : Option ZipFile)
    (p : iosMobileProvision) (h : parseIpaMobileProvision env file = (some p, none)) :
    ∃ r, getIosInfo env file = (some r, none) ∧
      r.«Type» = (if p.ProvisionsAllDevices.isSome then IOSEnterprise
                  else if p.ProvisionedDevices.isSome then IOSAdHoc else IOSAppStore) ∧
      (∀ b, p.ProvisionsAllDevices = some b → r.«Type» = IOSEnterprise) := by
  refine ⟨iosInfoOf p, by simp [getIosInfo, h], ?_, ?_⟩
  · rcases p with ⟨all, team, devs⟩
    cases all <;> cases devs <;> simp [iosInfoOf]
  · intro b hb
    rcases p with ⟨all, team, devs⟩
    cases devs <;> simp_all [iosInfoOf]

/-- C1, on a profile holding both keys, `ProvisionsAllDevices` being false. -/
theorem getIosInfo_type_by_presence_witness :
    parseIpaMobileProvision (sampleEnv [provisionEntry]) (some provisionEntry) =
        (some sampleProfile, none) ∧
      ∃ r, getIosInfo (sampleEnv [provisionEntry]) (some provisionEntry) = (some r, none) ∧
        r.«Type» = (if sampleProfile.ProvisionsAllDevices.isSome then IOSEnterprise
                    else if sampleProfile.ProvisionedDevices.isSome then IOSAdHoc
                    else IOSAppStore) ∧
        (∀ b, sampleProfile.ProvisionsAllDevices = some b → r.«Type» = IOSEnterprise) :=
  ⟨by decide,
   getIosInfo_type_by_presence (sampleEnv [provisionEntry]) (some provisionEntry)
     sampleProfile (by decide)⟩

/-- C2: once the profile has been decoded to `p`, the result of `getIosInfo`
has the team name of `p`, and its device list is the `ProvisionedDevices` of
`p` when that key is present (whatever the type is) and empty otherwise. -/
theorem getIosInfo_team_and_devices (env : Env) (file : Option ZipFile)
    (p : iosMobileProvision) (h : parseIpaMobileProvision env file = (some p, none)) :
    ∃ r, getIosInfo env file = (some r, none) ∧ r.TeamName = p.TeamName ∧
      (∀ devices, p.ProvisionedDevices = some devices → r.AllowDevice = devices) ∧
      (p.ProvisionedDevices = none → r.AllowDevice = []) := by
  refine ⟨iosInfoOf p, by simp [getIosInfo, h], ?_, ?_, ?_⟩
  · rcases p with ⟨all, team, devs⟩
    cases all <;> cases devs <;> simp [iosInfoOf]
  · intro devices hd
    rcases p with ⟨all, team, devs⟩
    cases all <;> simp_all [iosInfoOf]
  · intro hd
    rcases p with ⟨all, team, devs⟩
    cases all <;> simp_all [iosInfoOf]

/-- C2, on a profile holding both keys: the devices are kept under the
enterprise type. -/
theorem getIosInfo_team_and_devices_witness :
    parseIpaMobileProvision (sampleEnv [provisionEntry]) (some provisionEntry) =
        (some sampleProfile, none) ∧
      ∃ r, getIosInfo (sampleEnv [provisionEntry]) (some provisionEntry) = (some r, none) ∧
        r.TeamName = sampleProfile.TeamName ∧
        (∀ devices, sampleProfile.ProvisionedDevices = some devices →
          r.AllowDevice = devices) ∧
        (sampleProfile.ProvisionedDevices = none → r.AllowDevice = []) :=
  ⟨by decide,
   getIosInfo_team_and_devices (sampleEnv [provisionEntry]) (some provisionEntry)
     sampleProfile (by decide)⟩

/-- C3: on a nil entry `parseIpaIcon` returns no image and `ErrNoIcon`, and
`parseIpaMobileProvision` and `getIosInfo` return no result and
`ErrNoMobileProvision`; the two errors are different values. -/
theorem nil_entry_not_found (env : Env) :
    parseIpaIcon env none = (none, some ErrNoIcon) ∧
    parseIpaMobileProvision env none = (none, some ErrNoMobileProvision) ∧
    getIosInfo env none = (none, some ErrNoMobileProvision) ∧
    ErrNoIcon ≠ ErrNoMobileProvision := by
  refine ⟨rfl, rfl, rfl, by decide⟩

/-! ## Entry classification -/

/-- C4 as stated fails: with two icon entries the loop keeps the second one,
not the first. -/
theorem classify_icon_not_first :
    (∃ f ∈ [iconEntry2x, iconEntry3x], isIosIcon f = true) ∧
    (classify [iconEntry2x, iconEntry3x]).iosIconFile = some iconEntry3x ∧
    [iconEntry2x, iconEntry3x].find? isIosIcon = some iconEntry2x ∧
    (classify [iconEntry2x, iconEntry3x]).iosIconFile
      ≠ [iconEntry2x, iconEntry3x].find? isIosIcon := by
  refine ⟨⟨iconEntry2x, by decide, by decide⟩, by decide, by decide, by decide⟩

/-- C4, amended: the icon entry the loop of `NewAppParser` ends with is the
last entry, in archive order, that is classified as an iOS icon (none when
there is no such entry). -/
theorem classify_icon_last (files : List ZipFile) :
    (classify files).iosIconFile = (files.filter isIosIcon).getLast? := by
  induction files using List.reverseRecOn with
  | nil => rfl
  | append_singleton l f ih =>
    rw [classify_snoc, classifyStep_iosIconFile, List.filter_append]
    by_cases hf : isIosIcon f = true
    · simp [hf, List.filter_cons]
    · simp [hf, List.filter_cons, ih]

/-! ## The platform-specific records -/

/-- C8: when the Info.plist entry opens, is read and decodes to `p`,
`parseIpaFile` returns a nil error and a record with the bundle identifier,
short version and version of `p`, platform `PlatformIOS`, and the display name
of `p` as name, or its bundle name when the display name is empty. -/
theorem parseIpaFile_decoded (env : Env) (f : ZipFile) (rc buf : Bytes) (p : iosPlist)
    (hopen : env.zipFileOpen f = .ok rc) (hread : env.readAll rc = .ok buf)
    (hdec : env.plistDecodeInfo buf = .ok p) :
    ∃ info, parseIpaFile env (some f) = (some info, none) ∧
      info.BundleId = p.CFBundleIdentifier ∧ info.Version = p.CFBundleShortVersion ∧
      info.Build = p.CFBundleVersion ∧ info.Platform = PlatformIOS ∧
      (p.CFBundleDisplayName ≠ "" → info.Name = p.CFBundleDisplayName) ∧
      (p.CFBundleDisplayName = "" → info.Name = p.CFBundleName) := by
  have hret : parseIpaFile env (some f) =
      (some { Name := if p.CFBundleDisplayName = "" then p.CFBundleName
                      else p.CFBundleDisplayName,
              BundleId := p.CFBundleIdentifier, Version := p.CFBundleShortVersion,
              Build := p.CFBundleVersion, Platform := PlatformIOS }, none) := by
    simp only [parseIpaFile, hopen, hread, hdec]
  refine ⟨_, hret, rfl, rfl, rfl, rfl, ?_, ?_⟩
  · intro h; simp [h]
  · intro h; simp [h]

/-- C8, on the sample Info.plist, which has no display name. -/
theorem parseIpaFile_decoded_witness :
    ∃ info, parseIpaFile (sampleEnv [infoPlistEntry]) (some infoPlistEntry) = (some info, none) ∧
      info.BundleId = "com.kthcorp.helloworld" ∧ info.Version = "1.0" ∧
      info.Build = "1.0" ∧ info.Platform = PlatformIOS ∧ info.Name = "helloworld" := by
  obtain ⟨info, h, h1, h2, h3, h4, _, h6⟩ :=
    parseIpaFile_decoded (sampleEnv [infoPlistEntry]) infoPlistEntry [1] [1]
      { CFBundleName := "helloworld", CFBundleVersion := "1.0",
        CFBundleShortVersion := "1.0", CFBundleIdentifier := "com.kthcorp.helloworld" }
      rfl rfl rfl
  exact ⟨info, h, h1, h2, h3, h4, h6 rfl⟩

/-- C9: when the manifest entry decodes to a root with package `m.Package`,
version name `m.VersionName` and version code `m.VersionCode`, `parseApkFile`
returns a nil error and the record holding these three and platform
`PlatformAndroid`, all other fields being zero: no name, no icon, size 0 and
no iOS distribution info.  The record the `.apk` branch of `NewAppParser`
returns from it still has no iOS distribution info. -/
theorem parseApkFile_decoded (env : Env) (f : ZipFile) (m : androidManifest)
    (hdec : parseAndroidManifest env f = (some m, none)) :
    parseApkFile env (some f) =
        (some { Name := "", BundleId := m.Package, Version := m.VersionName,
                Build := m.VersionCode, Icon := none, Size := 0,
                Platform := PlatformAndroid,
                IOS := { «Type» := 0, TeamName := "", AllowDevice := [] } }, none) ∧
      ∀ name stat, ∃ r err, assembleApk env name stat (some f) = .ret (some r) err ∧
        r.BundleId = m.Package ∧ r.Version = m.VersionName ∧ r.Build = m.VersionCode ∧
        r.Platform = PlatformAndroid ∧
        r.IOS = { «Type» := 0, TeamName := "", AllowDevice := [] } := by
  have hp : parseApkFile env (some f) =
      (some { BundleId := m.Package, Version := m.VersionName,
              Build := m.VersionCode, Platform := PlatformAndroid }, none) := by
    simp only [parseApkFile, hdec]
  refine ⟨hp, ?_⟩
  intro name stat
  rcases assembleApk_cases env name stat (some f) with ⟨hn, _⟩ | ⟨i, hs, hr⟩
  · rw [hp] at hn; cases hn
  · rw [hp] at hs
    injection hs with hs
    subst hs
    exact ⟨_, _, hr, rfl, rfl, rfl, rfl, rfl⟩

/-- C9, on the sample manifest. -/
theorem parseApkFile_decoded_witness :
    parseAndroidManifest (sampleEnv [manifestEntry]) manifestEntry =
        (some ⟨"com.example.helloworld", "1.0", "1"⟩, none) ∧
      parseApkFile (sampleEnv [manifestEntry]) (some manifestEntry) =
        (some { Name := "", BundleId := "com.example.helloworld", Version := "1.0",
                Build := "1", Icon := none, Size := 0, Platform := PlatformAndroid,
                IOS := { «Type» := 0, TeamName := "", AllowDevice := [] } }, none) :=
  ⟨by decide,
   (parseApkFile_decoded (sampleEnv [manifestEntry]) manifestEntry
     ⟨"com.example.helloworld", "1.0", "1"⟩ (by decide)).1⟩

/-! ## The entry point -/

/-- C5: for a file that opens as a zip archive, `NewAppParser` returns no record
and the error "unknown platform" exactly when the extension of the file name is
neither ".apk" nor ".ipa"; the entries of the archive do not enter. -/
theorem NewAppParser_unknown_platform_iff (env : Env) (name file : String) (stat : FileInfo)
    (files : List ZipFile) (hopen : env.osOpen name = .ok file)
    (hstat : env.fileStat file = .ok stat)
    (hzip : env.zipNewReader file stat.Size = .ok files) :
    NewAppParser env name = .ret none (some (.errorsNew "unknown platform")) ↔
      (filepathExt stat.Name ≠ ".apk" ∧ filepathExt stat.Name ≠ ".ipa") := by
  rw [NewAppParser_opened env name file stat files hopen hstat hzip]
  by_cases ha : filepathExt stat.Name = androidExt
  · have hl : filepathExt stat.Name = ".apk" := ha
    simp only [ha, if_true]
    constructor
    · intro h
      rcases assembleApk_cases env name stat (classify files).xmlFile with ⟨_, hp⟩ | ⟨i, _, hr⟩
      · rw [hp] at h; cases h
      · rw [hr] at h; cases h
    · intro h; exact absurd rfl h.1
  · by_cases hi : filepathExt stat.Name = iosExt
    · simp only [ha, hi, if_false, if_true]
      constructor
      · intro h
        rcases assembleIpa_cases env stat (classify files) with ⟨_, hp⟩ | ⟨i, r, _, hr, _⟩
        · rw [hp] at h; cases h
        · rw [hr] at h; cases h
      · intro h; exact absurd rfl h.2
    · simp only [ha, hi, if_false, true_iff]
      exact ⟨ha, hi⟩

/-- C5, on an archive holding an Android manifest under an upper-case extension. -/
theorem NewAppParser_unknown_platform_iff_witness :
    NewAppParser (sampleEnv [manifestEntry]) "hello.APK" =
        .ret none (some (.errorsNew "unknown platform")) ↔
      (filepathExt "hello.APK" ≠ ".apk" ∧ filepathExt "hello.APK" ≠ ".ipa") :=
  NewAppParser_unknown_platform_iff (sampleEnv [manifestEntry]) "hello.APK" "hello.APK"
    ⟨"hello.APK", 4096⟩ [manifestEntry] rfl rfl rfl

/-- C6: the code faults where the claim asks for an error.  For an archive
named `*.apk` whose manifest is missing or does not decode, and for one named
`*.ipa` whose Info.plist is missing or does not decode, `NewAppParser`
dereferences the nil record: it panics and returns nothing. -/
theorem NewAppParser_mandatory_missing_panics (env : Env) (name file : String)
    (stat : FileInfo) (files : List ZipFile) (hopen : env.osOpen name = .ok file)
    (hstat : env.fileStat file = .ok stat)
    (hzip : env.zipNewReader file stat.Size = .ok files)
    (hmiss : (filepathExt stat.Name = ".apk" ∧
                (parseApkFile env (classify files).xmlFile).1 = none) ∨
             (filepathExt stat.Name = ".ipa" ∧
                (parseIpaFile env (classify files).plistFile).1 = none)) :
    NewAppParser env name = .panic := by
  rw [NewAppParser_opened env name file stat files hopen hstat hzip]
  rcases hmiss with ⟨he, hn⟩ | ⟨he, hn⟩
  · have ha : filepathExt stat.Name = androidExt := he
    simp only [ha, if_true]
    rcases assembleApk_cases env name stat (classify files).xmlFile with ⟨_, hp⟩ | ⟨i, hs, _⟩
    · exact hp
    · rw [hn] at hs; cases hs
  · have hi : filepathExt stat.Name = iosExt := he
    have ha : ¬ filepathExt stat.Name = androidExt := by
      rw [hi]; exact fun h => androidExt_ne_iosExt h.symm
    simp only [ha, hi, if_false, if_true]
    rcases assembleIpa_cases env stat (classify files) with ⟨_, hp⟩ | ⟨i, r, hs, _⟩
    · exact hp
    · rw [hn] at hs; cases hs

/-- C6, on an archive `hello.apk` without entries: `parseApkFile` has the
error "AndroidManifest.xml not found" at hand, and `NewAppParser` panics. -/
theorem NewAppParser_mandatory_missing_panics_witness :
    parseApkFile (sampleEnv []) (classify []).xmlFile =
        (none, some (.errorsNew "AndroidManifest.xml not found")) ∧
      NewAppParser (sampleEnv []) "hello.apk" = .panic :=
  ⟨by decide,
   NewAppParser_mandatory_missing_panics (sampleEnv []) "hello.apk" "hello.apk"
     ⟨"hello.apk", 4096⟩ [] rfl rfl rfl (Or.inl ⟨by decide, by decide⟩)⟩

/-- C7 as stated fails.  An `.ipa` without provisioning profile gives a record
with a nil error although `getIosInfo` failed, the iOS info staying at its zero
value; an `.apk` whose label lookup fails gives a record with a nil error and
an empty name. -/
theorem NewAppParser_swallows_errors :
    (NewAppParser (sampleEnv [infoPlistEntry, iconEntry2x]) "hello.ipa" =
        .ret (some { Name := "helloworld", BundleId := "com.kthcorp.helloworld",
                     Version := "1.0", Build := "1.0", Icon := some ⟨[9]⟩, Size := 4096,
                     Platform := PlatformIOS,
                     IOS := { «Type» := 0, TeamName := "", AllowDevice := [] } }) none ∧
      getIosInfo (sampleEnv [infoPlistEntry, iconEntry2x])
          (classify [infoPlistEntry, iconEntry2x]).iosMobileProvisionFile =
        (none, some ErrNoMobileProvision)) ∧
    (NewAppParser (sampleEnvNoLabel [manifestEntry]) "hello.apk" =
        .ret (some { Name := "", BundleId := "com.example.helloworld", Version := "1.0",
                     Build := "1", Icon := some ⟨[7]⟩, Size := 4096,
                     Platform := PlatformAndroid }) none ∧
      ((sampleEnvNoLabel [manifestEntry]).pkgLabel "hello.apk").2 =
        some (.external "label not found")) := by
  refine ⟨⟨by decide, by decide⟩, ⟨by decide, by decide⟩⟩

/-- C7, amended: when `NewAppParser` returns a record with a nil error, the
manifest (for `.apk`) or the Info.plist (for `.ipa`) was decoded and the icon
extraction returned no error.  For `.apk` the package opened and gave the icon
of the record, and the name of the record is what the label lookup returned,
whether or not the lookup reported an error.  For `.ipa` `parseIpaIcon` gave
the icon of the record with a nil error, and the iOS info of the record is the
result of `getIosInfo` when there is one and the zero value when `getIosInfo`
failed. -/
theorem NewAppParser_nil_error_decoded (env : Env) (name file : String) (stat : FileInfo)
    (files : List ZipFile) (r : AppInfo) (hopen : env.osOpen name = .ok file)
    (hstat : env.fileStat file = .ok stat)
    (hzip : env.zipNewReader file stat.Size = .ok files)
    (hret : NewAppParser env name = .ret (some r) none) :
    (filepathExt stat.Name = ".apk" ∧
      (∃ i, parseApkFile env (classify files).xmlFile = (some i, none)) ∧
      (∃ icon, parseApkIconAndLabel env name = (some icon, r.Name, none) ∧
        r.Icon = some icon) ∧
      ∃ pkg, env.apkOpenFile name = .ok pkg ∧ (env.pkgIcon pkg 720).1 = r.Icon ∧
        r.Name = (env.pkgLabel pkg).1) ∨
    (filepathExt stat.Name = ".ipa" ∧
      (∃ i, parseIpaFile env (classify files).plistFile = (some i, none)) ∧
      parseIpaIcon env (classify files).iosIconFile = (r.Icon, none) ∧
      (∀ d, (getIosInfo env (classify files).iosMobileProvisionFile).1 = some d →
        r.IOS = d) ∧
      ((getIosInfo env (classify files).iosMobileProvisionFile).1 = none →
        r.IOS = { «Type» := 0, TeamName := "", AllowDevice := [] })) := by
  rw [NewAppParser_opened env name file stat files hopen hstat hzip] at hret
  by_cases ha : filepathExt stat.Name = androidExt
  · left
    simp only [ha, if_true] at hret
    refine ⟨ha, ?_⟩
    rcases assembleApk_cases env name stat (classify files).xmlFile with ⟨_, hp⟩ | ⟨i, hs, hr⟩
    · rw [hp] at hret; cases hret
    · rw [hr] at hret
      injection hret with h1 h2
      injection h1 with h1
      obtain ⟨pkg, icon, hpkg, hicon, hall⟩ := parseApkIconAndLabel_nil_error env name h2
      refine ⟨?_, ?_, ?_⟩
      · rcases parseApkFile_shape env (classify files).xmlFile with ⟨j, hj⟩ | ⟨e, he⟩
        · exact ⟨j, hj⟩
        · rw [he] at hs; cases hs
      · subst h1
        refine ⟨icon, ?_, ?_⟩
        · simp only [hall]
        · simp only [hall]
      · subst h1
        refine ⟨pkg, hpkg, ?_, ?_⟩
        · simp only [hall, hicon]
        · simp only [hall]
  · by_cases hi : filepathExt stat.Name = iosExt
    · right
      simp only [ha, hi, if_false, if_true] at hret
      refine ⟨hi, ?_⟩
      rcases assembleIpa_cases env stat (classify files) with
        ⟨_, hp⟩ | ⟨i, q, hs, hr, _, hic, hios⟩
      · rw [hp] at hret; cases hret
      · rw [hr] at hret
        injection hret with h1 h2
        injection h1 with h1
        subst h1
        have hzero : i.IOS = {} := parseIpaFile_IOS env (classify files).plistFile i hs
        refine ⟨?_, Prod.ext hic.symm h2, ?_, ?_⟩
        · rcases parseIpaFile_shape env (classify files).plistFile with ⟨j, hj⟩ | ⟨e, he⟩
          · exact ⟨j, hj⟩
          · rw [he] at hs; cases hs
        · intro d hd
          rw [hios, hd]; rfl
        · intro hn
          rw [hios, hn, hzero]; rfl
    · simp only [ha, hi, if_false] at hret
      cases hret

/-- C7 amended, on the sample `.ipa` without provisioning profile: the error
of `getIosInfo` is dropped and the iOS info of the record is the zero value. -/
theorem NewAppParser_nil_error_decoded_witness :
    (NewAppParser (sampleEnv [infoPlistEntry, iconEntry2x]) "hello.ipa" =
        .ret (some sampleIpaRecordNoProfile) none ∧
      getIosInfo (sampleEnv [infoPlistEntry, iconEntry2x])
          (classify [infoPlistEntry, iconEntry2x]).iosMobileProvisionFile =
        (none, some ErrNoMobileProvision)) ∧
      ((filepathExt "hello.ipa" = ".apk" ∧
        (∃ i, parseApkFile (sampleEnv [infoPlistEntry, iconEntry2x])
            (classify [infoPlistEntry, iconEntry2x]).xmlFile = (some i, none)) ∧
        (∃ icon, parseApkIconAndLabel (sampleEnv [infoPlistEntry, iconEntry2x])
            "hello.ipa" = (some icon, sampleIpaRecordNoProfile.Name, none) ∧
          sampleIpaRecordNoProfile.Icon = some icon) ∧
        ∃ pkg, (sampleEnv [infoPlistEntry, iconEntry2x]).apkOpenFile "hello.ipa" = .ok pkg ∧
          ((sampleEnv [infoPlistEntry, iconEntry2x]).pkgIcon pkg 720).1 =
            sampleIpaRecordNoProfile.Icon ∧
          sampleIpaRecordNoProfile.Name =
            ((sampleEnv [infoPlistEntry, iconEntry2x]).pkgLabel pkg).1) ∨
       (filepathExt "hello.ipa" = ".ipa" ∧
        (∃ i, parseIpaFile (sampleEnv [infoPlistEntry, iconEntry2x])
            (classify [infoPlistEntry, iconEntry2x]).plistFile = (some i, none)) ∧
        parseIpaIcon (sampleEnv [infoPlistEntry, iconEntry2x])
            (classify [infoPlistEntry, iconEntry2x]).iosIconFile =
          (sampleIpaRecordNoProfile.Icon, none) ∧
        (∀ d, (getIosInfo (sampleEnv [infoPlistEntry, iconEntry2x])
            (classify [infoPlistEntry, iconEntry2x]).iosMobileProvisionFile).1 = some d →
          sampleIpaRecordNoProfile.IOS = d) ∧
        ((getIosInfo (sampleEnv [infoPlistEntry, iconEntry2x])
            (classify [infoPlistEntry, iconEntry2x]).iosMobileProvisionFile).1 = none →
          sampleIpaRecordNoProfile.IOS = { «Type» := 0, TeamName := "", AllowDevice := [] }))) :=
  ⟨⟨by decide, by decide⟩,
   NewAppParser_nil_error_decoded (sampleEnv [infoPlistEntry, iconEntry2x])
     "hello.ipa" "hello.ipa" ⟨"hello.ipa", 4096⟩ [infoPlistEntry, iconEntry2x]
     sampleIpaRecordNoProfile rfl rfl rfl (by decide)⟩

/-- C10: for an archive with extension ".apk" or ".ipa", whatever
`NewAppParser` returns is a record whose size is the size of the archive file,
and it does return such a record as soon as the manifest (for ".apk") or the
Info.plist (for ".ipa") is decoded, whether or not the icon, the label and the
provisioning profile are. -/
theorem NewAppParser_size (env : Env) (name file : String) (stat : FileInfo)
    (files : List ZipFile) (hopen : env.osOpen name = .ok file)
    (hstat : env.fileStat file = .ok stat)
    (hzip : env.zipNewReader file stat.Size = .ok files)
    (hext : filepathExt stat.Name = ".apk" ∨ filepathExt stat.Name = ".ipa") :
    (∀ info err, NewAppParser env name = .ret info err →
      ∃ r, info = some r ∧ r.Size = stat.Size) ∧
    (((filepathExt stat.Name = ".apk" ∧
        (parseApkFile env (classify files).xmlFile).1 ≠ none) ∨
      (filepathExt stat.Name = ".ipa" ∧
        (parseIpaFile env (classify files).plistFile).1 ≠ none)) →
      ∃ r err, NewAppParser env name = .ret (some r) err ∧ r.Size = stat.Size) := by
  rw [NewAppParser_opened env name file stat files hopen hstat hzip]
  by_cases ha : filepathExt stat.Name = androidExt
  · have hni : ¬ filepathExt stat.Name = ".ipa" := by
      rw [ha]; exact androidExt_ne_iosExt
    simp only [ha, if_true]
    rcases assembleApk_cases env name stat (classify files).xmlFile with ⟨hn, hp⟩ | ⟨i, hs, hr⟩
    · refine ⟨?_, ?_⟩
      · intro info err h; rw [hp] at h; cases h
      · rintro (⟨_, h⟩ | ⟨h, _⟩)
        · exact absurd hn h
        · exact absurd (ha ▸ h) hni
    · refine ⟨?_, ?_⟩
      · intro info err h
        rw [hr] at h
        injection h with h1 h2
        exact ⟨_, h1.symm, rfl⟩
      · intro _
        exact ⟨_, _, hr, rfl⟩
  · have hi : filepathExt stat.Name = iosExt := by
      rcases hext with h | h
      · exact absurd h ha
      · exact h
    simp only [ha, hi, if_false, if_true]
    rcases assembleIpa_cases env stat (classify files) with ⟨hn, hp⟩ | ⟨i, r, hs, hr, hsz, _⟩
    · refine ⟨?_, ?_⟩
      · intro info err h; rw [hp] at h; cases h
      · rintro (⟨h, _⟩ | ⟨_, h⟩)
        · exact absurd (hi ▸ h) (fun h => ha (hi ▸ h))
        · exact absurd hn h
    · refine ⟨?_, ?_⟩
      · intro info err h
        rw [hr] at h
        injection h with h1 h2
        exact ⟨r, h1.symm, hsz⟩
      · intro _
        exact ⟨r, _, hr, hsz⟩

/-- C10, on a sample `.ipa` whose icon does not decode and which has no
provisioning profile: the record still carries the size of the archive. -/
theorem NewAppParser_size_witness :
    NewAppParser (sampleEnv [infoPlistEntry, iconEntry3x]) "hello.ipa" =
        .ret (some { Name := "helloworld", BundleId := "com.kthcorp.helloworld",
                     Version := "1.0", Build := "1.0", Icon := none, Size := 4096,
                     Platform := PlatformIOS }) (some (.external "malformed png")) ∧
      ∃ r err, NewAppParser (sampleEnv [infoPlistEntry, iconEntry3x]) "hello.ipa" =
        .ret (some r) err ∧ r.Size = 4096 :=
  ⟨by decide,
   (NewAppParser_size (sampleEnv [infoPlistEntry, iconEntry3x]) "hello.ipa" "hello.ipa"
     ⟨"hello.ipa", 4096⟩ [infoPlistEntry, iconEntry3x] rfl rfl rfl
     (Or.inr (by decide))).2 (Or.inr ⟨by decide, by decide⟩)⟩

end Ipapk
